import Mathlib

/-!
Verification of the functorch batching rules in
`functorch/csrc/BatchRulesViews.cpp` (vmap batch rules for view-like
operators: unsqueeze, repeat, diag, _unsafe_view, flip, the trace
decomposition, and the in-place resize plumbing).

Tensors are embedded as a shape (list of dimension sizes, row-major)
together with a total data function from multi-indices to integer values.
Host-library tensor operators (diag, diag_embed, diagonal, movedim, flip,
repeat, select, resize_) and the batch-dim helper layer
(`BatchRulesHelper.h` / `PlumbingHelper.h`) are part of the repository but
not included under the sources verified here, so they are modelled from
the specification, as marked in their doc comments.
-/

/-- A tensor value: a shape (row-major list of dimension sizes) and a total
map from multi-indices to element values.  Indices are read with `List.getD`
so that the data function is total; only in-bounds indices are meaningful. -/
structure Tensor where
  shape : List Nat
  data : List Nat → Int

/-- Number of elements of a tensor (product of its dimension sizes). -/
def Tensor.numel (t : Tensor) : Nat := t.shape.prod

/-- Row-major flat offset of a multi-index `idx` inside `shape`. -/
def flatIndex : List Nat → List Nat → Nat
  | [], _ => 0
  | _ :: ss, idx => idx.headD 0 * ss.prod + flatIndex ss idx.tail

/-- Inverse of `flatIndex`: the multi-index of flat offset `k` in `shape`. -/
def unflatten : List Nat → Nat → List Nat
  | [], _ => []
  | _ :: ss, k => k / ss.prod :: unflatten ss (k % ss.prod)

/-- Modelled from the spec: the host library's dimension-wrapping helper.
A negative dimension index `dim` is wrapped by adding `dim_post_expr`
(Python-style negative indexing); a non-negative one is returned as is. -/
def maybe_wrap_dim (dim : Int) (dim_post_expr : Nat) : Int :=
  if dim < 0 then dim + dim_post_expr else dim

/-- Modelled from the spec: the host library's axis-permutation view.
`perm` lists, for each output axis, the input axis it comes from; the data
function rebuilds the input multi-index positionwise from the output one. -/
def Tensor.permute (t : Tensor) (perm : List Nat) : Tensor :=
  ⟨perm.map (fun p => t.shape.getD p 0),
   fun idx => t.data ((List.range t.shape.length).map
     (fun j => idx.getD (perm.indexOf j) 0))⟩

/-- Modelled from the spec: the host library's `movedim(src, dst)` — the
axis `src` (possibly negative) is moved so it settles at position `dst`,
the relative order of all other axes being preserved. -/
def Tensor.movedim (t : Tensor) (src dst : Int) : Tensor :=
  let r := t.shape.length
  let s := (maybe_wrap_dim src r).toNat
  let d := (maybe_wrap_dim dst r).toNat
  t.permute ((((List.range r).filter (fun j => j != s))).insertIdx d s)

/-- Modelled from the spec: `moveBatchDimToFront` from the batch-dim helper
layer (`BatchRulesHelper.h`, not under the verified sources).  An absent
batch dim leaves the tensor unchanged; a present one is moved to axis 0. -/
def moveBatchDimToFront (tensor : Tensor) (maybe_batch_dim : Option Nat) : Tensor :=
  match maybe_batch_dim with
  | none => tensor
  | some b => tensor.movedim b 0

/-- Modelled from the spec: `rankWithoutBatchDim` from the batch-dim helper
layer — the tensor's rank minus one when a batch dim is present. -/
def rankWithoutBatchDim (tensor : Tensor) (maybe_batch_dim : Option Nat) : Nat :=
  tensor.shape.length - (if maybe_batch_dim.isSome then 1 else 0)

/-- Modelled from the spec: `getPhysicalDim` from the batch-dim helper
layer — a logical (unbatched, possibly negative) dimension is wrapped in
the unbatched rank space first and then shifted past the batch dim. -/
def getPhysicalDim (tensor : Tensor) (has_batch_dim : Bool) (logical_dim : Int) : Int :=
  let bdim_count : Nat := if has_batch_dim then 1 else 0
  let logical_ndim : Nat := tensor.shape.length - bdim_count
  maybe_wrap_dim logical_dim logical_ndim + bdim_count

/-- Modelled from the spec: the host library's `unsqueeze` — inserts a new
size-1 axis at (wrapped) position `dim`; the data function reads the input
multi-index by skipping the inserted coordinate.  An out-of-range position
(a host-library error) is modelled by clamping to the rank. -/
def Tensor.unsqueeze (t : Tensor) (dim : Int) : Tensor :=
  let d := min (maybe_wrap_dim dim (t.shape.length + 1)).toNat t.shape.length
  ⟨t.shape.insertIdx d 1,
   fun idx => t.data ((List.range t.shape.length).map
     (fun j => idx.getD (if j < d then j else j + 1) 0))⟩

/-- Modelled from the spec: the host library's `select`-style slot
extraction — fixes coordinate `i` on axis `d`, removing that axis.  Used to
strip a batch dimension slot by slot when stating batching-consistency. -/
def Tensor.select (t : Tensor) (d : Nat) (i : Nat) : Tensor :=
  ⟨t.shape.eraseIdx d, fun idx => t.data (idx.insertIdx d i)⟩

/-- Modelled from the spec: the host library's `repeat` (tiling) — the
factor list may be longer than the rank, in which case the tensor is
padded with leading singleton axes first; each output coordinate reads the
input modulo the (padded) input size on that axis. -/
def Tensor.repeatOp (t : Tensor) (sizes : List Nat) : Tensor :=
  let pad := sizes.length - t.shape.length
  let pshape := List.replicate pad 1 ++ t.shape
  ⟨List.zipWith (· * ·) sizes pshape,
   fun idx => t.data (((List.range sizes.length).map
     (fun j => idx.getD j 0 % pshape.getD j 0)).drop pad)⟩

/-- Modelled from the spec: the host library's `diag_embed` (with its
default last-two-axes placement) — builds, for each leading multi-index, a
square matrix carrying the input's last axis on the `offset` diagonal. -/
def diag_embed (t : Tensor) (offset : Int) : Tensor :=
  let base := t.shape.dropLast
  let m := t.shape.getLastD 0 + offset.natAbs
  ⟨base ++ [m, m],
   fun idx =>
     let pre := (List.range base.length).map (fun j => idx.getD j 0)
     let i := idx.getD base.length 0
     let j := idx.getD (base.length + 1) 0
     if 0 ≤ offset then
       if (j : Int) = (i : Int) + offset then t.data (pre ++ [i]) else 0
     else
       if (i : Int) = (j : Int) + (-offset) then t.data (pre ++ [j]) else 0⟩

/-- Modelled from the spec: the host library's `diagonal` with its default
dims (0, 1) — removes the first two axes and appends the diagonal axis
last; offset `k ≥ 0` walks `(p, p + k)`, `k < 0` walks `(p + |k|, p)`. -/
def diagonalOp (t : Tensor) (offset : Int) : Tensor :=
  let n := t.shape.getD 0 0
  let m := t.shape.getD 1 0
  let rest := t.shape.drop 2
  let dlen := if 0 ≤ offset then min n (m - offset.toNat)
              else min (n - (-offset).toNat) m
  ⟨rest ++ [dlen],
   fun idx =>
     let restIdx := (List.range rest.length).map (fun j => idx.getD j 0)
     let p := idx.getD rest.length 0
     if 0 ≤ offset then t.data (p :: (p + offset.toNat) :: restIdx)
     else t.data ((p + (-offset).toNat) :: p :: restIdx)⟩

/-- Modelled from the spec: a materialized copy of a tensor.  In this
value-level embedding a clone is value-identical to its source; the
aliasing distinction lives outside the embedding. -/
def Tensor.clone (t : Tensor) : Tensor :=
  ⟨t.shape, fun idx => t.data idx⟩

/-- Modelled from the spec: the host library's `at::diag` — a 1-D input
builds a diagonal matrix, a 2-D input extracts (a copy of) a diagonal, and
any other rank raises the host library's shape error. -/
def atDiag (t : Tensor) (k : Int) : Except String Tensor :=
  if t.shape.length = 1 then .ok (diag_embed t k)
  else if t.shape.length = 2 then .ok ((diagonalOp t k).clone)
  else .error "matrix or a vector expected"

/-- Modelled from the spec: the host library's `_unsafe_view` —
reinterprets the flat row-major contents of a tensor under a new shape,
with no safety checks. -/
def _unsafe_view (t : Tensor) (size : List Nat) : Tensor :=
  ⟨size, fun idx => t.data (unflatten t.shape (flatIndex size idx))⟩

/-- Modelled from the spec: the host library's `flip` — reverses the
contents along each axis of the (wrapped) axis set `dims`. -/
def Tensor.flip (t : Tensor) (dims : List Int) : Tensor :=
  let ds := dims.map (fun d => (maybe_wrap_dim d t.shape.length).toNat)
  ⟨t.shape,
   fun idx => t.data ((List.range t.shape.length).map
     (fun j => if j ∈ ds then t.shape.getD j 0 - 1 - idx.getD j 0 else idx.getD j 0))⟩

/-- Modelled from the spec: the host library's `sum` over all elements
(the result is a 0-dimensional tensor). -/
def atSum (t : Tensor) : Tensor :=
  ⟨[], fun _ => ((List.range t.numel).map (fun k => t.data (unflatten t.shape k))).sum⟩

/-- Modelled from the spec: the host library's native `trace` — the sum of
the main diagonal of a rank-2 input. -/
def atTrace (t : Tensor) : Tensor :=
  ⟨[], fun _ => ((List.range (min (t.shape.getD 0 0) (t.shape.getD 1 0))).map
    (fun p => t.data [p, p])).sum⟩

/-- Modelled from the spec: the host library's in-place `resize_`.  The
underlying storage keeps its existing contents in flat (storage) order;
storage beyond the old element count is uninitialized, modelled as 0. -/
def Tensor.resize_ (t : Tensor) (new_size : List Nat) : Tensor :=
  ⟨new_size,
   fun idx =>
     let k := flatIndex new_size idx
     if k < t.numel then t.data (unflatten t.shape k) else 0⟩

/-- The `unsqueeze` batch rule (`unsqueeze_batch_rule` in the source):
canonicalize the batch dim to the front, wrap the logical dim in the
unbatched rank-plus-one space, shift it past the batch axis, unsqueeze. -/
def unsqueeze_batch_rule (self : Tensor) (self_bdim : Option Nat) (dim : Int) :
    Tensor × Option Nat :=
  let self_ := moveBatchDimToFront self self_bdim
  let rank := rankWithoutBatchDim self self_bdim
  let dim' := maybe_wrap_dim dim (rank + 1) + 1
  (self_.unsqueeze dim', some 0)

/-- One step of the padding loop in `repeat_batch_rule`
(`while (self_.dim() < sizes_with_bdim.size()) self_ = self_.unsqueeze(1)`),
iterated once per missing rank. -/
def Tensor.padToRank (t : Tensor) (target : Nat) : Tensor :=
  (fun s : Tensor => s.unsqueeze 1)^[target - t.shape.length] t

/-- The `repeat` batch rule (`repeat_batch_rule` in the source): prepend a
repeat factor of 1 for the batch axis, canonicalize the batch dim to the
front, pad with singleton axes at position 1 until the rank matches the
factor list, then tile. -/
def repeat_batch_rule (self : Tensor) (self_bdim : Option Nat) (sizes : List Nat) :
    Tensor × Option Nat :=
  let sizes_with_bdim := 1 :: sizes
  let self_ := moveBatchDimToFront self self_bdim
  ((self_.padToRank sizes_with_bdim.length).repeatOp sizes_with_bdim, some 0)

/-- The `diag` batch rule (`diag_batch_rule` in the source): no batch dim
delegates to the plain operator; unbatched rank 1 embeds a diagonal with
the canonical batch axis in front; unbatched rank 2 moves the batch axis
last, extracts the diagonal and clones; any other rank is an error. -/
def diag_batch_rule (input : Tensor) (input_bdim : Option Nat) (diagonal : Int) :
    Except String (Tensor × Option Nat) :=
  match input_bdim with
  | none => (atDiag input diagonal).map (fun r => (r, none))
  | some b =>
    let input_ := moveBatchDimToFront input (some b)
    let rank := rankWithoutBatchDim input (some b)
    if rank = 1 then .ok (diag_embed input_ diagonal, some 0)
    else if rank = 2 then
      .ok (((diagonalOp (input_.movedim 0 (-1)) diagonal).clone), some (rank - 2))
    else .error "Passed in an invalid shape to at::diag"

/-- The `_unsafe_view` batch rule (`_unsafe_view_batch_rule` in the
source): inserts the batch-axis size at the batch-dim position of the
requested shape and passes the batch dim through.  The source dereferences
`self_bdim` unconditionally, so an absent batch dim (undefined behavior in
the source) is modelled with `Option.getD 0`. -/
def _unsafe_view_batch_rule (self : Tensor) (self_bdim : Option Nat) (size : List Nat) :
    Tensor × Option Nat :=
  let b := self_bdim.getD 0
  let view_size := size.insertIdx b (self.shape.getD b 0)
  (_unsafe_view self view_size, self_bdim)

/-- The `trace` decomposition (`trace_decomp` in the source): sum over the
result of extracting the diagonal, with no batch-dim bookkeeping. -/
def trace_decomp (self : Tensor) : Tensor :=
  atSum (diagonalOp self 0)

/-- The `flip` batch rule (`flip_batch_rule` in the source): canonicalize
the batch dim to the front, translate every requested logical axis to its
physical axis, flip over the translated set. -/
def flip_batch_rule (self : Tensor) (self_bdim : Option Nat) (dims : List Int) :
    Tensor × Option Nat :=
  let self_ := moveBatchDimToFront self self_bdim
  let new_dims := dims.map (fun i => getPhysicalDim self true i)
  (self_.flip new_dims, some 0)

/-- The memory formats relevant to the resize plumbing's precondition. -/
inductive MemoryFormat
  | Contiguous
  | ChannelsLast
  | ChannelsLast3d
  | Preserve
deriving DecidableEq

/-- Modelled from the spec: the batched wrapper seen by the mutating
plumbing — the underlying storage tensor, its batch-dim index at the
current vmap level, and the wrapper's cached (unbatched) sizes, which must
be refreshed after a mutation of the storage. -/
structure BatchedTensor where
  value : Tensor
  bdim : Option Nat
  wrapperShape : List Nat

/-- The in-place resize plumbing (`resize__plumbing` in the source):
check the memory format, unwrap, insist on batch dim 0 (a reported
not-yet-implemented error otherwise), prepend the batch-axis size to the
requested shape, resize the storage in place, refresh the wrapper's cached
sizes, and return the (mutated) wrapper.  Mutation is modelled by state
passing; the dynamic-layer lookup and dispatch-key guard of the source act
only on external state and have no value-level content here. -/
def resize__plumbing (self : BatchedTensor) (size : List Nat)
    (optional_memory_format : Option MemoryFormat) : Except String BatchedTensor :=
  if optional_memory_format = none ∨ optional_memory_format = some MemoryFormat.Contiguous then
    match self.bdim with
    | none => .error "INTERNAL ASSERT FAILED: resize plumbing requires a batch dim"
    | some b =>
      if b = 0 then
        let self_value := moveBatchDimToFront self.value (some b)
        let new_size := self_value.shape.getD b 0 :: size
        let resized := self_value.resize_ new_size
        .ok { value := resized, bdim := some b, wrapperShape := resized.shape.eraseIdx b }
      else .error "NYI: resize_ batch rule for batch dim != 0"
  else .error "resize_: batching rule only supports None or Contiguous MemoryFormat"


/-! ## Helper lemmas -/

/-- Two tensors with equal shapes and pointwise-equal data are equal. -/
theorem Tensor.mk_congr {s s' : List Nat} {f f' : List Nat → Int}
    (hs : s = s') (hf : ∀ idx, f idx = f' idx) :
    Tensor.mk s f = Tensor.mk s' f' := by
  subst hs
  exact congrArg (Tensor.mk s) (funext hf)

/-! ## Claim theorems -/

set_option maxHeartbeats 4000000 in
/-- Claim C1: for the diag operator with a batch dimension present, on any
batched input of unbatched rank 1 (resp. 2), indexing each batch slot of
the rule's output at the reported batch dimension equals applying the
unbatched diag operator (diagonal construction resp. extraction)
independently to that slot. -/
theorem diag_rule_batching_consistency (t : Tensor) (b : Nat) (k : Int) (i : Nat)
    (hr : t.shape.length = 2 ∨ t.shape.length = 3)
    (hb : b < t.shape.length) (_hi : i < t.shape.getD b 0) :
    ∃ out, diag_batch_rule t (some b) k = .ok (out, some 0) ∧
      atDiag (t.select b i) k = .ok (out.select 0 i) := by
  obtain ⟨s, f⟩ := t
  rcases hr with hr | hr
  · obtain ⟨s0, s1, rfl⟩ := List.length_eq_two.mp hr
    simp only [List.length_cons, List.length_nil] at hb
    interval_cases b
    · exact ⟨_, rfl, rfl⟩
    · exact ⟨_, rfl, rfl⟩
  · obtain ⟨s0, s1, s2, rfl⟩ := List.length_eq_three.mp hr
    simp only [List.length_cons, List.length_nil] at hb
    interval_cases b
    · exact ⟨_, rfl, rfl⟩
    · exact ⟨_, rfl, rfl⟩
    · exact ⟨_, rfl, rfl⟩

/-- Witness for C1 at a concrete batched input of unbatched rank 1. -/
theorem diag_rule_batching_consistency_witness :
    ∃ out, diag_batch_rule ⟨[2, 3], fun idx => (flatIndex [2, 3] idx : Int)⟩ (some 0) 0
        = .ok (out, some 0) ∧
      atDiag ((Tensor.mk [2, 3] (fun idx => (flatIndex [2, 3] idx : Int))).select 0 1) 0
        = .ok (out.select 0 1) :=
  diag_rule_batching_consistency ⟨[2, 3], fun idx => (flatIndex [2, 3] idx : Int)⟩ 0 0 1
    (Or.inl rfl) (by decide) (by decide)

/-- Claim C3: for the diag operator, any input whose unbatched rank is
neither 1 nor 2 makes the rule fail with an error (never a silently
wrong-shaped result); with a batch dimension present the error is the
rule's designated invalid-shape message. -/
theorem diag_rule_invalid_rank_errors (t : Tensor) (bd : Option Nat) (k : Int)
    (h1 : rankWithoutBatchDim t bd ≠ 1) (h2 : rankWithoutBatchDim t bd ≠ 2) :
    (∃ msg, diag_batch_rule t bd k = .error msg) ∧
    (bd.isSome → diag_batch_rule t bd k = .error "Passed in an invalid shape to at::diag") := by
  cases bd with
  | none =>
    have h1' : t.shape.length ≠ 1 := by simpa [rankWithoutBatchDim] using h1
    have h2' : t.shape.length ≠ 2 := by simpa [rankWithoutBatchDim] using h2
    refine ⟨⟨"matrix or a vector expected", ?_⟩, by simp⟩
    simp [diag_batch_rule, atDiag, h1', h2', Except.map]
  | some b =>
    have h : diag_batch_rule t (some b) k = .error "Passed in an invalid shape to at::diag" := by
      simp [diag_batch_rule, h1, h2]
    exact ⟨⟨_, h⟩, fun _ => h⟩

/-- Witness for C3 at a concrete batched input of unbatched rank 3. -/
theorem diag_rule_invalid_rank_errors_witness :
    (∃ msg, diag_batch_rule ⟨[2, 2, 2, 2], fun _ => 0⟩ (some 0) 0 = .error msg) ∧
    ((some 0 : Option Nat).isSome →
      diag_batch_rule ⟨[2, 2, 2, 2], fun _ => 0⟩ (some 0) 0
        = .error "Passed in an invalid shape to at::diag") :=
  diag_rule_invalid_rank_errors ⟨[2, 2, 2, 2], fun _ => 0⟩ (some 0) 0 (by decide) (by decide)

set_option maxHeartbeats 4000000 in
/-- Claim C4: for the diag operator on a batched input of unbatched rank 2,
the rule reports batch dim `rank - 2 = 0`, its output's leading axis is the
batch axis (the batch dimension was moved last before extraction, so it
settles at position `rank - 2` of the rank-2 result), the trailing axis has
the diagonal's length, and each entry is the input's entry at the
slot-and-diagonal coordinates (the clone step is value-identity in this
embedding; aliasing lives outside it). -/
theorem diag_rule_rank2_moves_batch_last (t : Tensor) (b : Nat) (k : Int) (i p : Nat)
    (hlen : t.shape.length = 3) (hb : b < t.shape.length) :
    ∃ out, diag_batch_rule t (some b) k
        = .ok (out, some (rankWithoutBatchDim t (some b) - 2)) ∧
      rankWithoutBatchDim t (some b) - 2 = 0 ∧
      out.shape = [t.shape.getD b 0,
        if 0 ≤ k then
          min ((t.shape.eraseIdx b).getD 0 0) ((t.shape.eraseIdx b).getD 1 0 - k.toNat)
        else
          min ((t.shape.eraseIdx b).getD 0 0 - (-k).toNat) ((t.shape.eraseIdx b).getD 1 0)] ∧
      out.data [i, p] = (if 0 ≤ k then t.data (List.insertIdx b i [p, p + k.toNat])
        else t.data (List.insertIdx b i [p + (-k).toNat, p])) := by
  obtain ⟨s, f⟩ := t
  obtain ⟨s0, s1, s2, rfl⟩ := List.length_eq_three.mp hlen
  simp only [List.length_cons, List.length_nil] at hb
  interval_cases b
  · exact ⟨_, rfl, rfl, rfl, rfl⟩
  · exact ⟨_, rfl, rfl, rfl, rfl⟩
  · exact ⟨_, rfl, rfl, rfl, rfl⟩

/-- Witness for C4 at a concrete batched input of unbatched rank 2. -/
theorem diag_rule_rank2_moves_batch_last_witness :
    ∃ out, diag_batch_rule ⟨[2, 3, 4], fun idx => (flatIndex [2, 3, 4] idx : Int)⟩ (some 1) 0
        = .ok (out, some (rankWithoutBatchDim
            ⟨[2, 3, 4], fun idx => (flatIndex [2, 3, 4] idx : Int)⟩ (some 1) - 2)) ∧
      rankWithoutBatchDim ⟨[2, 3, 4], fun idx => (flatIndex [2, 3, 4] idx : Int)⟩ (some 1) - 2 = 0 ∧
      out.shape = [(⟨[2, 3, 4], fun idx => (flatIndex [2, 3, 4] idx : Int)⟩ : Tensor).shape.getD 1 0,
        if 0 ≤ (0 : Int) then
          min (((⟨[2, 3, 4], fun idx => (flatIndex [2, 3, 4] idx : Int)⟩ : Tensor).shape.eraseIdx 1).getD 0 0)
            (((⟨[2, 3, 4], fun idx => (flatIndex [2, 3, 4] idx : Int)⟩ : Tensor).shape.eraseIdx 1).getD 1 0 - (0 : Int).toNat)
        else
          min (((⟨[2, 3, 4], fun idx => (flatIndex [2, 3, 4] idx : Int)⟩ : Tensor).shape.eraseIdx 1).getD 0 0 - (-(0 : Int)).toNat)
            (((⟨[2, 3, 4], fun idx => (flatIndex [2, 3, 4] idx : Int)⟩ : Tensor).shape.eraseIdx 1).getD 1 0)] ∧
      out.data [1, 2] = (if 0 ≤ (0 : Int) then
          (⟨[2, 3, 4], fun idx => (flatIndex [2, 3, 4] idx : Int)⟩ : Tensor).data (List.insertIdx 1 1 [2, 2 + (0 : Int).toNat])
        else
          (⟨[2, 3, 4], fun idx => (flatIndex [2, 3, 4] idx : Int)⟩ : Tensor).data (List.insertIdx 1 1 [2 + (-(0 : Int)).toNat, 2])) :=
  diag_rule_rank2_moves_batch_last ⟨[2, 3, 4], fun idx => (flatIndex [2, 3, 4] idx : Int)⟩ 1 0 1 2
    (by decide) (by decide)

/-- Claim C2 (amended): only the diag rule has a genuine no-batching path —
with an absent batch-dim index it returns exactly the plain operator's
result and reports no batch-dim index on the output. -/
theorem diag_rule_no_batching_path (t : Tensor) (k : Int) (r : Tensor)
    (h : atDiag t k = .ok r) :
    diag_batch_rule t none k = .ok (r, none) := by
  simp [diag_batch_rule, h, Except.map]

/-- Witness for the amended C2 at a concrete rank-1 input. -/
theorem diag_rule_no_batching_path_witness :
    diag_batch_rule ⟨[2], fun _ => 0⟩ none 0 = .ok (diag_embed ⟨[2], fun _ => 0⟩ 0, none) :=
  diag_rule_no_batching_path ⟨[2], fun _ => 0⟩ 0 (diag_embed ⟨[2], fun _ => 0⟩ 0) rfl

/-- Counterexample to C2 as stated: the repeat rule, called with an absent
batch-dim index on a `[3]` tensor and repeat factors `[2]`, does not return
the plain operator's result with no batch-dim index (it pads the input to
rank 2, tiles to shape `[3, 2]` instead of `[6]`, and reports batch dim 0). -/
theorem repeat_rule_no_batching_path_fails :
    repeat_batch_rule ⟨[3], fun _ => 0⟩ none [2]
      ≠ (Tensor.repeatOp ⟨[3], fun _ => 0⟩ [2], none) := by
  intro h
  exact Option.noConfusion (congrArg Prod.snd h)

/-- Claim C10: the `_unsafe_view` rule with a batch dimension at index `b`
passes the batch-dim index through unchanged, and its output is the unsafe
view of the raw (uncanonicalized) input at the requested shape expanded by
inserting the input's size at axis `b` at position `b`. -/
theorem unsafe_view_rule_expands_and_passes_bdim (t : Tensor) (b : Nat) (size : List Nat)
    (_hb : b < t.shape.length) :
    (_unsafe_view_batch_rule t (some b) size).2 = some b ∧
    (_unsafe_view_batch_rule t (some b) size).1.shape
      = size.insertIdx b (t.shape.getD b 0) ∧
    ∀ idx, (_unsafe_view_batch_rule t (some b) size).1.data idx
      = t.data (unflatten t.shape (flatIndex (size.insertIdx b (t.shape.getD b 0)) idx)) :=
  ⟨rfl, rfl, fun _ => rfl⟩

/-- Witness for C10 at a concrete batched input. -/
theorem unsafe_view_rule_expands_and_passes_bdim_witness :
    (_unsafe_view_batch_rule ⟨[2, 3], fun idx => (flatIndex [2, 3] idx : Int)⟩ (some 0) [6]).2 = some 0 ∧
    (_unsafe_view_batch_rule ⟨[2, 3], fun idx => (flatIndex [2, 3] idx : Int)⟩ (some 0) [6]).1.shape
      = [6].insertIdx 0 ((⟨[2, 3], fun idx => (flatIndex [2, 3] idx : Int)⟩ : Tensor).shape.getD 0 0) ∧
    (_unsafe_view_batch_rule ⟨[2, 3], fun idx => (flatIndex [2, 3] idx : Int)⟩ (some 0) [6]).1.data [1, 2]
      = (⟨[2, 3], fun idx => (flatIndex [2, 3] idx : Int)⟩ : Tensor).data
          (unflatten [2, 3] (flatIndex ([6].insertIdx 0
            ((⟨[2, 3], fun idx => (flatIndex [2, 3] idx : Int)⟩ : Tensor).shape.getD 0 0)) [1, 2])) :=
  ⟨(unsafe_view_rule_expands_and_passes_bdim ⟨[2, 3], fun idx => (flatIndex [2, 3] idx : Int)⟩ 0 [6] (by decide)).1,
   (unsafe_view_rule_expands_and_passes_bdim ⟨[2, 3], fun idx => (flatIndex [2, 3] idx : Int)⟩ 0 [6] (by decide)).2.1,
   (unsafe_view_rule_expands_and_passes_bdim ⟨[2, 3], fun idx => (flatIndex [2, 3] idx : Int)⟩ 0 [6] (by decide)).2.2 [1, 2]⟩

/-- Claim C5: the resize plumbing, given a valid memory format and an
unwrapped batch-dim index that is present but not 0, reports the
designated not-yet-implemented error to the caller. -/
theorem resize_rule_nonzero_bdim_nyi (w : BatchedTensor) (size : List Nat)
    (fmt : Option MemoryFormat) (b : Nat)
    (hfmt : fmt = none ∨ fmt = some MemoryFormat.Contiguous)
    (hb : w.bdim = some b) (hb0 : b ≠ 0) :
    resize__plumbing w size fmt = .error "NYI: resize_ batch rule for batch dim != 0" := by
  simp only [resize__plumbing]
  rw [if_pos hfmt, hb]
  simp [hb0]

/-- Witness for C5 at a concrete wrapper with batch dim 1. -/
theorem resize_rule_nonzero_bdim_nyi_witness :
    resize__plumbing ⟨⟨[3, 4], fun _ => 0⟩, some 1, [4]⟩ [6] none
      = .error "NYI: resize_ batch rule for batch dim != 0" :=
  resize_rule_nonzero_bdim_nyi ⟨⟨[3, 4], fun _ => 0⟩, some 1, [4]⟩ [6] none 1
    (Or.inl rfl) rfl (by decide)

/-- Claim C6 (evaluation at the failing input): resizing the batched
wrapper of per-slot shape `[4]`, batch size 2, row-major values `0..7`, to
per-slot shape `[6]` yields storage shape `[2, 6]` as claimed, but slot 1's
column 0 now holds 6 (the value that was at slot 1, column 2 — storage kept
its flat order) instead of the original value 4, so per-slot column
preservation fails for batch sizes greater than 1. -/
theorem resize_rule_storage_order_preservation :
    ∃ w', resize__plumbing ⟨⟨[2, 4], fun idx => (flatIndex [2, 4] idx : Int)⟩, some 0, [4]⟩ [6] none
        = .ok w' ∧
      w'.value.shape = [2, 6] ∧
      w'.value.data [1, 0] = 6 ∧
      (⟨[2, 4], fun idx => (flatIndex [2, 4] idx : Int)⟩ : Tensor).data [1, 0] = 4 :=
  ⟨_, rfl, rfl, by decide, by decide⟩

/-- Moving a present batch dimension to the front preserves the rank. -/
theorem moveFront_shape_length (t : Tensor) (b : Nat) (hb : b < t.shape.length) :
    (moveBatchDimToFront t (some b)).shape.length = t.shape.length := by
  have hwrap : (maybe_wrap_dim (b : Int) t.shape.length).toNat = b := by
    unfold maybe_wrap_dim
    split <;> omega
  have hwrap0 : (maybe_wrap_dim (0 : Int) t.shape.length).toNat = 0 := by
    unfold maybe_wrap_dim
    split <;> omega
  have hfilter : ((List.range t.shape.length).filter (fun j => j != b)).length
      = t.shape.length - 1 := by
    rw [← List.Nodup.erase_eq_filter (List.nodup_range _) b,
      List.length_erase_of_mem (List.mem_range.mpr hb), List.length_range]
  simp only [moveBatchDimToFront, Tensor.movedim, Tensor.permute, hwrap, hwrap0,
    List.length_map, List.insertIdx_zero, List.length_cons, hfilter]
  omega

set_option maxHeartbeats 4000000 in
/-- Claim C7: for the repeat operator on an input of per-slot shape `[3]`
with batch size `B` at batch dimension `b` and repeat factors `[2]`, the
rule reports batch dim 0, produces shape `[B, 6]`, and each batch slot of
its output equals `repeat [2]` applied to the corresponding unbatched
slice (the batch axis itself is never tiled). -/
theorem repeat_rule_batching_consistency (t : Tensor) (b B : Nat) (hb : b < 2)
    (hsh : t.shape = List.insertIdx b B [3]) :
    ∃ out, repeat_batch_rule t (some b) [2] = (out, some 0) ∧
      out.shape = [B, 6] ∧
      ∀ i, i < B → out.select 0 i = (t.select b i).repeatOp [2] := by
  obtain ⟨s, f⟩ := t
  simp only at hsh
  interval_cases b
  · subst hsh
    refine ⟨_, rfl, ?_, ?_⟩
    · show [1 * B, 2 * 3] = [B, 6]
      norm_num
    · intro i hi
      refine Tensor.mk_congr rfl (fun idx => ?_)
      show f [i % B, idx.getD 0 0 % 3] = f [i, idx.getD 0 0 % 3]
      rw [Nat.mod_eq_of_lt hi]
  · subst hsh
    refine ⟨_, rfl, ?_, ?_⟩
    · show [1 * B, 2 * 3] = [B, 6]
      norm_num
    · intro i hi
      refine Tensor.mk_congr rfl (fun idx => ?_)
      show f [idx.getD 0 0 % 3, i % B] = f [idx.getD 0 0 % 3, i]
      rw [Nat.mod_eq_of_lt hi]

/-- Witness for C7 at a concrete batched input with batch size 2. -/
theorem repeat_rule_batching_consistency_witness :
    ∃ out, repeat_batch_rule ⟨[2, 3], fun idx => (flatIndex [2, 3] idx : Int)⟩ (some 0) [2]
        = (out, some 0) ∧
      out.shape = [2, 6] ∧
      ∀ i, i < 2 → out.select 0 i
        = ((⟨[2, 3], fun idx => (flatIndex [2, 3] idx : Int)⟩ : Tensor).select 0 i).repeatOp [2] :=
  repeat_rule_batching_consistency ⟨[2, 3], fun idx => (flatIndex [2, 3] idx : Int)⟩ 0 2
    (by decide) rfl

set_option maxHeartbeats 4000000 in
/-- Claim C8: the unsqueeze rule reports batch dim 0 and inserts the
singleton axis at the wrapped logical dimension (wrapped in the unbatched
rank-plus-one space) shifted one past the front-canonicalized batch axis;
on a batched input of unbatched rank 1 every batch slot of the output
equals the plain unsqueeze of the corresponding unbatched slice — in
particular logical axis 0 lands immediately after the batch axis. -/
theorem unsqueeze_rule_correct (t : Tensor) (b : Nat) (dim : Int) (i : Nat)
    (hb : b < t.shape.length)
    (hlo : -((rankWithoutBatchDim t (some b) : Int) + 1) ≤ dim)
    (hhi : dim ≤ (rankWithoutBatchDim t (some b) : Int)) :
    (unsqueeze_batch_rule t (some b) dim).2 = some 0 ∧
    (unsqueeze_batch_rule t (some b) dim).1.shape
      = List.insertIdx ((maybe_wrap_dim dim (rankWithoutBatchDim t (some b) + 1)).toNat + 1) 1
          (moveBatchDimToFront t (some b)).shape ∧
    (t.shape.length = 2 → i < t.shape.getD b 0 →
      (unsqueeze_batch_rule t (some b) dim).1.select 0 i
        = (t.select b i).unsqueeze dim) := by
  refine ⟨rfl, ?_, ?_⟩
  · have hw0 : 0 ≤ maybe_wrap_dim dim (rankWithoutBatchDim t (some b) + 1) ∧
        maybe_wrap_dim dim (rankWithoutBatchDim t (some b) + 1)
          ≤ (rankWithoutBatchDim t (some b) : Int) := by
      unfold maybe_wrap_dim
      split <;> constructor <;> omega
    have hlen : (moveBatchDimToFront t (some b)).shape.length = t.shape.length :=
      moveFront_shape_length t b hb
    have hrank : rankWithoutBatchDim t (some b) = t.shape.length - 1 := by
      simp [rankWithoutBatchDim]
    simp only [unsqueeze_batch_rule, Tensor.unsqueeze]
    have h1 : maybe_wrap_dim (maybe_wrap_dim dim (rankWithoutBatchDim t (some b) + 1) + 1)
        ((moveBatchDimToFront t (some b)).shape.length + 1)
        = maybe_wrap_dim dim (rankWithoutBatchDim t (some b) + 1) + 1 := by
      unfold maybe_wrap_dim
      rw [if_neg]
      omega
    rw [h1]
    have h2 : min (maybe_wrap_dim dim (rankWithoutBatchDim t (some b) + 1) + 1).toNat
        (moveBatchDimToFront t (some b)).shape.length
        = (maybe_wrap_dim dim (rankWithoutBatchDim t (some b) + 1)).toNat + 1 := by
      rw [hlen]
      omega
    rw [h2]
  · intro hlen2 hi
    obtain ⟨s, f⟩ := t
    obtain ⟨s0, s1, rfl⟩ := List.length_eq_two.mp hlen2
    simp only [List.length_cons, List.length_nil] at hb
    have hr1 : rankWithoutBatchDim ⟨[s0, s1], f⟩ (some b) = 1 := by
      simp [rankWithoutBatchDim]
    rw [hr1] at hlo hhi
    norm_num at hlo hhi
    interval_cases b <;> interval_cases dim <;> rfl

/-- Witness for C8 at a concrete batched input of unbatched rank 1,
inserting at logical axis 0. -/
theorem unsqueeze_rule_correct_witness :
    (unsqueeze_batch_rule ⟨[2, 3], fun idx => (flatIndex [2, 3] idx : Int)⟩ (some 0) 0).2 = some 0 ∧
    (unsqueeze_batch_rule ⟨[2, 3], fun idx => (flatIndex [2, 3] idx : Int)⟩ (some 0) 0).1.shape
      = List.insertIdx ((maybe_wrap_dim 0 (rankWithoutBatchDim
            ⟨[2, 3], fun idx => (flatIndex [2, 3] idx : Int)⟩ (some 0) + 1)).toNat + 1) 1
          (moveBatchDimToFront ⟨[2, 3], fun idx => (flatIndex [2, 3] idx : Int)⟩ (some 0)).shape ∧
    ((⟨[2, 3], fun idx => (flatIndex [2, 3] idx : Int)⟩ : Tensor).shape.length = 2 →
      1 < (⟨[2, 3], fun idx => (flatIndex [2, 3] idx : Int)⟩ : Tensor).shape.getD 0 0 →
      (unsqueeze_batch_rule ⟨[2, 3], fun idx => (flatIndex [2, 3] idx : Int)⟩ (some 0) 0).1.select 0 1
        = ((⟨[2, 3], fun idx => (flatIndex [2, 3] idx : Int)⟩ : Tensor).select 0 1).unsqueeze 0) :=
  unsqueeze_rule_correct ⟨[2, 3], fun idx => (flatIndex [2, 3] idx : Int)⟩ 0 0 1
    (by decide) (by decide) (by decide)

/-- Claim C9: the trace decomposition is the pure composition of summing
over the extracted diagonal and agrees with the host library's native
trace on every rank-2 input. -/
theorem trace_decomp_equals_native (t : Tensor) (hlen : t.shape.length = 2) :
    trace_decomp t = atTrace t := by
  obtain ⟨s, f⟩ := t
  obtain ⟨n, m, rfl⟩ := List.length_eq_two.mp hlen
  refine Tensor.mk_congr rfl (fun idx => ?_)
  simp [trace_decomp, atSum, atTrace, diagonalOp, Tensor.numel, unflatten]

/-- Witness for C9 at a concrete rank-2 input. -/
theorem trace_decomp_equals_native_witness :
    trace_decomp ⟨[2, 3], fun idx => (flatIndex [2, 3] idx : Int)⟩
      = atTrace ⟨[2, 3], fun idx => (flatIndex [2, 3] idx : Int)⟩ :=
  trace_decomp_equals_native ⟨[2, 3], fun idx => (flatIndex [2, 3] idx : Int)⟩ rfl
